import Mathlib

/-!
Verification development for the Plan-Solve recipe (recipes/Plan_Solve):
a two-level LangGraph orchestration engine with an inner function-calling
loop (llm_node / tool_node / route_tools) and an outer plan-solve loop
(planner_node / execute_step / replanner_node / should_end).

The embedding below translates the Python source shallowly:

* Python exceptions are modelled by `Except String`: a function that can
  raise returns `Except.error msg`, and a caller that does not catch the
  exception propagates the `error` value.
* The concrete domain tools are modelled on their deterministic paths
  (the demo environment with the API keys unset, and the pure validation
  code that runs before any network or rendering side effect); the
  network branches are external I/O and are outside the model.
* LangChain messages are modelled by a `Message` structure carrying the
  langgraph message id used by the `add_messages` reducer; ids are `none`
  for freshly constructed messages, to which langgraph assigns fresh
  unique ids on merge, so a `none` id never collides with an existing one.
* Model backends (`llm_with_tools.invoke`, the structured planner and
  replanner LLMs, the compiled inner agent) are external collaborators;
  the nodes that call them are parameterised by the backend function.
-/

set_option autoImplicit false

namespace Recipe

/-- Tool-call payloads as the registered tools consume them: one shape per
tool schema of the source (stock, current weather, geocoding, forecast,
timeseries plot, and the argument-free plan-complete sentinel). `other`
stands for an argument mapping matching no registered schema. Numeric
coordinate and temperature values are represented as rationals; no claim
performs arithmetic on them. -/
inductive ToolArgs where
  | stockArgs (ticker date : String)
  | weatherArgs (location : String)
  | geoArgs (cityName stateCode country : String)
  | forecastArgs (lat lon : Rat)
  | plotArgs (weatherData : List (String × List (String × Rat))) (title : String)
  | noArgs
  | other
  deriving DecidableEq, Repr

/-- ToolRequest of the data model: `\x7bid, name, arguments\x7d` as emitted by the
model inside an AI message (`tool_call["id"]`, `tool_call["name"]`,
`tool_call["args"]` in tool_node.py). -/
structure ToolCall where
  id : String
  name : String
  args : ToolArgs
  deriving DecidableEq, Repr

/-- Role and role-specific payload of one LangChain message: a human turn,
a model (AI) turn carrying its tool_calls list, or a tool-result turn
carrying the tool name and the correlation id of the request it answers. -/
inductive MessageKind where
  | human
  | ai (toolCalls : List ToolCall)
  | tool (name : String) (toolCallId : String)
  deriving DecidableEq, Repr

/-- One conversation message: langgraph id (used by the `add_messages`
reducer; `none` for a freshly constructed message, which receives a fresh
unique id on merge), textual content, and the role-specific part. -/
structure Message where
  id : Option String
  content : String
  kind : MessageKind
  deriving DecidableEq, Repr

/-- Tool_calls attribute of an AI message; `[]` on other roles, matching
the AIMessage default used by execute_step's filtered AI messages. -/
def Message.toolCalls (m : Message) : List ToolCall :=
  match m.kind with
  | .ai tcs => tcs
  | _ => []

/-- True exactly on AI messages (used by `filter_messages(..., include_types="ai")`). -/
def Message.isAI (m : Message) : Bool :=
  match m.kind with
  | .ai _ => true
  | _ => false

/-- True exactly on tool messages (used by `filter_messages(..., include_types="tool")`). -/
def Message.isToolMsg (m : Message) : Bool :=
  match m.kind with
  | .tool _ _ => true
  | _ => false

/-- HumanMessage constructor: fresh message with human role. -/
def mkHumanMessage (content : String) : Message :=
  { id := none, content := content, kind := .human }

/-- AIMessage as produced by a model backend, with its tool_calls list. -/
def mkAIMessage (content : String) (toolCalls : List ToolCall) : Message :=
  { id := none, content := content, kind := .ai toolCalls }

/-- ToolMessage constructor as used in tool_node.py line 72:
`ToolMessage(content=str(observation), name=tool_name, tool_call_id=tool_call["id"])`.
The langgraph id is not passed, so it is `none` (fresh). -/
def mkToolMessage (content name toolCallId : String) : Message :=
  { id := none, content := content, kind := .tool name toolCallId }

/-- State of the inner function-calling graph (states.py `State`):
`messages` annotated with the `add_messages` reducer and the optional
`plan_completed` flag. -/
structure State where
  messages : List Message
  plan_completed : Option Bool
  deriving DecidableEq, Repr

/-- Placeholder for the repository root path `ROOT_DIR` (tools/__init__.py);
its concrete value never matters to the orchestration core. -/
def ROOT_DIR : String := "ROOT_DIR"

/-- Stock tool on its deterministic path (AV_STOCK_API_KEY unset): returns the
str() rendering of the fixed demonstration dictionary
`\x7b"low": "245.4500", "high": "249.0300"\x7d`. Arguments not matching the
tool schema fail pydantic validation, which raises. -/
def get_stock_price (args : ToolArgs) : Except String String :=
  match args with
  | .stockArgs _ _ => .ok "\x7b\x27low\x27: \x27245.4500\x27, \x27high\x27: \x27249.0300\x27\x7d"
  | _ => .error "ValidationError: get_stock_price"

/-- Current-weather tool on its deterministic path (WEATHER_API_KEY unset):
returns the str() rendering of the fixed demonstration dictionary. -/
def get_current_weather (args : ToolArgs) : Except String String :=
  match args with
  | .weatherArgs _ => .ok "\x7b\x27description\x27: \x27thunderstorms\x27, \x27temperature\x27: 25.3, \x27humidity\x27: 94\x7d"
  | _ => .error "ValidationError: get_current_weather"

/-- Geocoding tool on its deterministic path (WEATHER_API_KEY unset):
returns the str() rendering of the San Francisco fallback tuple. -/
def get_geo_coordinates (args : ToolArgs) : Except String String :=
  match args with
  | .geoArgs _ _ _ => .ok "(37.7790262, -122.419906)"
  | _ => .error "ValidationError: get_geo_coordinates"

/-- Forecast tool on its deterministic path (WEATHER_API_KEY unset):
returns the str() rendering of the fixed single demonstration datapoint. -/
def get_weather_forecast (args : ToolArgs) : Except String String :=
  match args with
  | .forecastArgs _ _ => .ok "[\x7b\x272025-10-04 12:00:00\x27: 25.3\x7d]"
  | _ => .error "ValidationError: get_weather_forecast"

/-- Format validation performed by
`datetime.strptime(dt_str, "%Y-%m-%d %H:%M:%S")` in
`_plot_weather_timeseries_internal`, modelled as the shape check for the
fixed zero-padded pattern `YYYY-MM-DD HH:MM:SS`. -/
def validDatetimeFormat (s : String) : Bool :=
  match s.toList with
  | [y1, y2, y3, y4, '-', m1, m2, '-', d1, d2, ' ', h1, h2, ':', n1, n2, ':', s1, s2] =>
    [y1, y2, y3, y4, m1, m2, d1, d2, h1, h2, n1, n2, s1, s2].all Char.isDigit
  | _ => false

/-- Validation chain of `_plot_weather_timeseries_internal`
(weather_tools.py lines 184-232), the pure code that runs before any
matplotlib rendering: an empty weather_data mapping raises
`ValueError("Weather data cannot be empty")`; empty series are skipped;
the first datetime string failing strptime raises; if no non-empty series
remains, `ValueError("No valid datetime-temperature pairs ...")` is
raised. Each item of a series is a single datetime-temperature pair by
construction of `ToolArgs.plotArgs` (the source checks `len(item) != 1`
dynamically). The matplotlib rendering and file save that follow are
external I/O outside the model. -/
def plotWeatherTimeseriesInternal (weatherData : List (String × List (String × Rat))) :
    Except String Unit :=
  if weatherData = [] then
    .error "Weather data cannot be empty"
  else
    match weatherData.findSome? (fun series =>
        series.2.findSome? (fun item =>
          if validDatetimeFormat item.1 then none else some item.1)) with
    | some bad =>
      .error ("Invalid datetime format in data: " ++ bad ++
        ". Expected \x27YYYY-MM-DD HH:MM:SS\x27")
    | none =>
      if weatherData.filter (fun series => ¬ series.2 = []) = [] then
        .error "No valid datetime-temperature pairs found in weather_data"
      else
        .ok ()

/-- Timeseries plot tool: runs the internal validation/rendering and, on
success, returns its confirmation string
`f"Plot \x7btitle\x7d was saved to f\x27\x7bROOT_DIR\x7d/images/plot.png"`. An exception
raised by the internal function propagates out of the tool. -/
def plot_weather_timeseries (args : ToolArgs) : Except String String :=
  match args with
  | .plotArgs weatherData title =>
    match plotWeatherTimeseriesInternal weatherData with
    | .error e => .error e
    | .ok _ => .ok ("Plot " ++ title ++ " was saved to f\x27" ++ ROOT_DIR ++ "/images/plot.png")
  | _ => .error "ValidationError: plot_weather_timeseries"

/-- Plan-complete sentinel tool (tools/plan_complete.py): no arguments, no
external effect, fixed acknowledgment string. -/
def plan_complete (_args : ToolArgs) : Except String String :=
  .ok "Plan execution completed successfully"

/-- Tool registry built by `get_tools_by_name` (tool_node.py lines 17-28):
maps each registered tool name to its invocable capability and reports
`none` for any other name. -/
def tools_by_name (name : String) : Option (ToolArgs → Except String String) :=
  if name = "get_stock_price" then some get_stock_price
  else if name = "get_current_weather" then some get_current_weather
  else if name = "get_weather_forecast" then some get_weather_forecast
  else if name = "plot_weather_timeseries" then some plot_weather_timeseries
  else if name = "get_geo_coordinates" then some get_geo_coordinates
  else if name = "plan_complete" then some plan_complete
  else none

/-- Routing targets of the inner graph: the Command returned by tool_node
goes to the "llm" node or to the END sentinel. -/
inductive NextNode where
  | llm
  | END
  deriving DecidableEq, Repr

/-- Command object returned by tool_node: the goto target and the messages
update to be merged into the state by the `add_messages` reducer. -/
structure Command where
  goto : NextNode
  update : List Message
  deriving DecidableEq, Repr

/-- Dispatch loop of tool_node (tool_node.py lines 61-76): for each tool
call in order, resolve the name in the registry; a resolved capability is
invoked (an exception it raises is NOT caught and propagates out of the
loop), an unresolved name yields the observation `"Tool <name> not found"`;
a ToolMessage with the str() of the observation, the tool name and the
correlation id is appended; after appending, a call named "plan_complete"
switches the pending goto to END (and nothing ever switches it back). -/
def toolLoop (calls : List ToolCall) (next : NextNode) (acc : List Message) :
    Except String (NextNode × List Message) :=
  match calls with
  | [] => .ok (next, acc)
  | tc :: rest =>
    match tools_by_name tc.name with
    | some tool =>
      match tool tc.args with
      | .error e => .error e
      | .ok observation =>
        toolLoop rest
          (if tc.name = "plan_complete" then .END else next)
          (acc ++ [mkToolMessage observation tc.name tc.id])
    | none =>
      toolLoop rest
        (if tc.name = "plan_complete" then .END else next)
        (acc ++ [mkToolMessage ("Tool " ++ tc.name ++ " not found") tc.name tc.id])

/-- Tool dispatch node (tool_node.py lines 38-77): reads the most recent
message (`messages[-1]` raises IndexError on an empty history, and
accessing `.tool_calls` on a non-AI message raises AttributeError), runs
the dispatch loop starting from goto "llm" with an empty result list, and
returns the Command with the final goto and the produced ToolMessages. -/
def tool_node (state : State) : Except String Command :=
  match state.messages.getLast? with
  | none => .error "IndexError: list index out of range"
  | some mostRecent =>
    match mostRecent.kind with
    | .ai toolCalls =>
      match toolLoop toolCalls .llm [] with
      | .error e => .error e
      | .ok (next, msgs) => .ok { goto := next, update := msgs }
    | _ => .error "AttributeError: tool_calls"

/-- Conditional-edge function of the inner graph
(function_calling_agent.py lines 10-24): raises ValueError on an empty
message list; routes to "tools" when the last message is an AIMessage
with a non-empty tool_calls list, and to END ("__end__") otherwise. -/
def route_tools (state : State) : Except String String :=
  match state.messages.getLast? with
  | none => .error "ValueError: No messages found in input state to tool_edge"
  | some lastMessage =>
    match lastMessage.kind with
    | .ai toolCalls => if toolCalls.length > 0 then .ok "tools" else .ok "__end__"
    | _ => .ok "__end__"

/-- Model invocation node (llm_nodes.py lines 16-19), parameterised by the
bound-tools backend `llm_with_tools.invoke`: reads the message history
(defaulting to `[]`), calls the backend on it unconditionally — there is
no emptiness check — and returns the update holding exactly the backend
response. -/
def llm_node (backend : List Message → Message) (state : State) :
    Except String (List Message) :=
  .ok [backend state.messages]

/-- One step of the langgraph `add_messages` reducer on the annotated
`messages` field: a message without an id is assigned a fresh unique id by
langgraph and therefore appended; a message whose id matches an existing
message replaces that message in place; any other message is appended.
(`RemoveMessage`, which this repository never produces, is not modelled.) -/
def addOneMessage (acc : List Message) (m : Message) : List Message :=
  match m.id with
  | none => acc ++ [m]
  | some i =>
    if acc.any (fun x => x.id == some i) then
      acc.map (fun x => if x.id == some i then m else x)
    else acc ++ [m]

/-- Reducer `add_messages` declared on State.messages (states.py line 20):
folds each message of a node's update into the existing history. -/
def add_messages (old new : List Message) : List Message :=
  new.foldl addOneMessage old

/-- StepRecord: one past_steps entry, the tuple
`(ai_message.tool_calls, tool_message.content)` built by execute_step. -/
abbrev StepRec : Type := List ToolCall × String

/-- Reducer `operator.add` declared on PlanSolve.past_steps
(states.py line 32): list concatenation of the old value with a node's
update. -/
def operatorAdd (old new : List StepRec) : List StepRec :=
  old ++ new

/-- Outer Plan-Solve state (states.py `PlanSolve`): the user objective,
the current plan, the accumulated step records, and the completion flag. -/
structure PlanSolve where
  input : String
  plan : List String
  past_steps : List StepRec
  plan_completed : Option Bool
  deriving DecidableEq, Repr

/-- Structured Plan schema (states.py `Plan`): the ordered step list the
planning LLMs must return. -/
structure Plan where
  steps : List String
  deriving DecidableEq, Repr

/-- Partial update dictionary returned by an outer-loop node: `none` for a
key the node's returned dictionary does not mention. -/
structure PlanSolveUpdate where
  input : Option String
  plan : Option (List String)
  past_steps : Option (List StepRec)
  plan_completed : Option (Option Bool)
  deriving DecidableEq, Repr

/-- Merge of a node's partial update into the outer state, following the
per-field annotations of states.py: `input`, `plan` and `plan_completed`
are replaced when the update mentions them (last write wins), while
`past_steps` is combined with `operator.add`, concatenating the update to
the existing sequence; an unmentioned key is left unchanged. -/
def applyPlanSolveUpdate (s : PlanSolve) (u : PlanSolveUpdate) : PlanSolve :=
  { input := u.input.getD s.input,
    plan := u.plan.getD s.plan,
    past_steps :=
      match u.past_steps with
      | none => s.past_steps
      | some delta => operatorAdd s.past_steps delta,
    plan_completed := u.plan_completed.getD s.plan_completed }

/-- Numbered rendering `"\n".join(f"\x7bi + 1\x7d. \x7bstep\x7d" ...)` used by
execute_step and replanner_node for the plan. -/
def renderNumberedPlan (steps : List String) : String :=
  String.intercalate "\n" (steps.enum.map (fun p => toString (p.1 + 1) ++ ". " ++ p.2))

/-- Rendering of the accumulated step records for the replanner prompt
(planner_nodes.py line 57): each record is shown as
`f"\x7bi + 1\x7d. \x7bstep[0]\x7d and result was \n\x7bstep[1]\x7d\n\n"`; the Python str()
of the tool-call list is modelled by its repr. -/
def renderPastSteps (pastSteps : List StepRec) : String :=
  String.intercalate "\n"
    (pastSteps.enum.map (fun p =>
      toString (p.1 + 1) ++ ". " ++ reprStr p.2.1 ++ " and result was \n" ++ p.2.2 ++ "\n\n"))

/-- Prompt assembly `replanner_prompt.format(input=..., plan=..., past_steps=...)`:
the three placeholders of the fixed template (prompts.py) filled with the
rendered state. The fixed surrounding instruction text, which no claim
depends on, is abbreviated to a marker in this embedding. -/
def replannerSystemMessage (input planStr pastStepsStr : String) : String :=
  "replanner_prompt[input=" ++ input ++ "][plan=" ++ planStr ++
    "][past_steps=" ++ pastStepsStr ++ "]"

/-- Prompt assembly `planner_prompt.format(date=...)` (prompts.py), with
the fixed instruction text abbreviated to a marker. -/
def plannerSystemMessage (date : String) : String :=
  "planner_prompt[date=" ++ date ++ "]"

/-- Planner node (planner_nodes.py lines 15-35), parameterised by the
structured planning backend (`planning_llm.with_structured_output(Plan)`
invoked on the system message and the user objective) and by the current
date string: returns the update dictionary
`\x7b"plan": plan.steps, "plan_completed": False\x7d`. -/
def planner_node (backend : String → String → Plan) (date : String)
    (state : PlanSolve) : PlanSolveUpdate :=
  { input := none,
    plan := some (backend (plannerSystemMessage date) state.input).steps,
    past_steps := none,
    plan_completed := some (some false) }

/-- Replanner node (planner_nodes.py lines 38-65), parameterised by the
structured replanning backend invoked on the formatted system message:
renders the current plan and past steps, calls the backend, and returns
the update dictionary `\x7b"plan": replan.steps\x7d` — no other key. -/
def replanner_node (backend : String → Plan) (state : PlanSolve) : PlanSolveUpdate :=
  { input := none,
    plan := some (backend (replannerSystemMessage state.input
      (renderNumberedPlan state.plan) (renderPastSteps state.past_steps))).steps,
    past_steps := none,
    plan_completed := none }

/-- Conditional edge should_end (planner_nodes.py lines 68-84): END when
`state.get("plan_completed", False)` is truthy (a missing or None flag is
falsy) or the plan has no steps; otherwise back to the
"function_calling_agent" node. -/
def should_end (state : PlanSolve) : String :=
  if state.plan_completed.getD false || state.plan.length == 0 then "__end__"
  else "function_calling_agent"

/-- Task text rendered by execute_step from the plan
(execute_step_node.py lines 25-26). -/
def execute_step_task (plan : List String) : String :=
  "For the following plan: " ++ renderNumberedPlan plan ++
    "\n\nYou are tasked with executing these steps above."

/-- Update returned by execute_step: the past_steps delta (combined into
the outer state by `operator.add`) and the plan_completed flag. -/
structure ExecUpdate where
  past_steps : List StepRec
  plan_completed : Bool
  deriving DecidableEq, Repr

/-- Executor adapter (execute_step_node.py lines 8-48), parameterised by
the compiled inner agent (`agent_executor.invoke` seen as the function
from the seeded message list to the final message history): renders the
plan into a task, runs the inner agent on the single seeded human message,
sets plan_completed exactly when some AI message of the returned
transcript carries a tool call named "plan_complete" (the source loop
sets the flag on the first hit and never resets it), and pairs the AI
messages positionally with the tool messages (`zip` truncating to the
shorter list) into StepRecords. -/
def execute_step (agent_executor : List Message → List Message)
    (state : PlanSolve) : ExecUpdate :=
  let agentResponse := agent_executor [mkHumanMessage (execute_step_task state.plan)]
  let aiMessages := agentResponse.filter Message.isAI
  let toolMessages := agentResponse.filter Message.isToolMsg
  let planCompleted := aiMessages.foldl
    (fun flag m => flag || m.toolCalls.any (fun tc => tc.name == "plan_complete")) false
  { past_steps := (aiMessages.zip toolMessages).map (fun p => (p.1.toolCalls, p.2.content)),
    plan_completed := planCompleted }

/-! ### Helper lemmas about the dispatch loop -/

/-- Premise shared by the dispatch lemmas: a call list all of whose
resolved capabilities return normally (raise no exception). -/
def CallsReturn (calls : List ToolCall) : Prop :=
  ∀ c ∈ calls, ∀ g, tools_by_name c.name = some g → ∃ v, g c.args = Except.ok v

/-- Dispatch of a successful prefix followed by a raising call: toolLoop
propagates the error of the first failing invocation. -/
theorem toolLoop_first_error (post : List ToolCall) (tc : ToolCall)
    (f : ToolArgs → Except String String) (e : String)
    (hf : tools_by_name tc.name = some f) (he : f tc.args = Except.error e) :
    ∀ pre : List ToolCall, CallsReturn pre →
      ∀ (next : NextNode) (acc : List Message),
        toolLoop (pre ++ tc :: post) next acc = Except.error e := by
  intro pre
  induction pre with
  | nil =>
    intro _ next acc
    simp only [List.nil_append, toolLoop, hf, he]
  | cons c cs ih =>
    intro hpre next acc
    have hc := hpre c (List.mem_cons_self _ _)
    have hcs : CallsReturn cs := fun c2 h2 => hpre c2 (List.mem_cons_of_mem _ h2)
    simp only [List.cons_append, toolLoop]
    cases hres : tools_by_name c.name with
    | none => exact ih hcs _ _
    | some g =>
      obtain ⟨v, hv⟩ := hc g hres
      simp only [hv]
      exact ih hcs _ _

/-- Dispatch of a call list all of whose resolved capabilities return
normally: toolLoop returns one ToolMessage per call appended to the
accumulator, in call order, each a fresh (id-less) tool message carrying
the call's name and correlation id; the final goto is END exactly when
some call is named "plan_complete", and otherwise the incoming goto. -/
theorem toolLoop_ok (calls : List ToolCall) :
    CallsReturn calls →
    ∀ (next : NextNode) (acc : List Message),
      ∃ msgs, toolLoop calls next acc =
          Except.ok
            (if calls.any (fun tc => tc.name == "plan_complete") then NextNode.END else next,
              acc ++ msgs) ∧
        msgs.map Message.kind = calls.map (fun tc => MessageKind.tool tc.name tc.id) ∧
        ∀ m ∈ msgs, m.id = none := by
  induction calls with
  | nil =>
    intro _ next acc
    exact ⟨[], by simp [toolLoop], by simp, by simp⟩
  | cons tc rest ih =>
    intro h next acc
    have htc := h tc (List.mem_cons_self _ _)
    have hrest : CallsReturn rest := fun c2 h2 => h c2 (List.mem_cons_of_mem _ h2)
    have hgoto : ∀ next' : NextNode,
        (if rest.any (fun c => c.name == "plan_complete") then NextNode.END
          else if tc.name = "plan_complete" then NextNode.END else next) =
        (if (tc :: rest).any (fun c => c.name == "plan_complete") then NextNode.END
          else next) := by
      intro _
      by_cases h1 : tc.name = "plan_complete" <;>
        by_cases h2 : rest.any (fun c => c.name == "plan_complete") <;>
        simp [h1, h2]
    cases hres : tools_by_name tc.name with
    | none =>
      obtain ⟨msgs, hloop, hkinds, hids⟩ :=
        ih hrest (if tc.name = "plan_complete" then NextNode.END else next)
          (acc ++ [mkToolMessage ("Tool " ++ tc.name ++ " not found") tc.name tc.id])
      refine ⟨mkToolMessage ("Tool " ++ tc.name ++ " not found") tc.name tc.id :: msgs, ?_, ?_, ?_⟩
      · simp only [toolLoop, hres, hloop, hgoto (if tc.name = "plan_complete" then NextNode.END else next)]
        simp [List.append_assoc]
      · simp [hkinds, mkToolMessage]
      · intro m hm
        rcases List.mem_cons.mp hm with h | h
        · subst h; rfl
        · exact hids m h
    | some g =>
      obtain ⟨v, hv⟩ := htc g hres
      obtain ⟨msgs, hloop, hkinds, hids⟩ :=
        ih hrest (if tc.name = "plan_complete" then NextNode.END else next)
          (acc ++ [mkToolMessage v tc.name tc.id])
      refine ⟨mkToolMessage v tc.name tc.id :: msgs, ?_, ?_, ?_⟩
      · simp only [toolLoop, hres, hv, hloop, hgoto (if tc.name = "plan_complete" then NextNode.END else next)]
        simp [List.append_assoc]
      · simp [hkinds, mkToolMessage]
      · intro m hm
        rcases List.mem_cons.mp hm with h | h
        · subst h; rfl
        · exact hids m h

/-- Dispatch of a call list none of whose names resolves: every call yields
the observation `"Tool <name> not found"`, and the goto is left unchanged
(an unresolved name is never the registered sentinel name, so the END
switch never fires). -/
theorem toolLoop_unresolved (calls : List ToolCall) :
    (∀ c ∈ calls, tools_by_name c.name = none) →
    ∀ (next : NextNode) (acc : List Message),
      toolLoop calls next acc =
        Except.ok (next,
          acc ++ calls.map (fun tc =>
            mkToolMessage ("Tool " ++ tc.name ++ " not found") tc.name tc.id)) := by
  induction calls with
  | nil => intro _ next acc; simp [toolLoop]
  | cons tc rest ih =>
    intro h next acc
    have htc := h tc (List.mem_cons_self _ _)
    have hrest := fun c2 h2 => h c2 (List.mem_cons_of_mem _ h2)
    have hname : ¬ tc.name = "plan_complete" := by
      intro hn
      rw [hn] at htc
      rw [show tools_by_name "plan_complete" = some plan_complete from rfl] at htc
      exact Option.noConfusion htc
    simp only [toolLoop, htc, if_neg hname, ih hrest]
    simp [List.append_assoc]

/-- Every message the dispatch loop appends is a freshly constructed
ToolMessage, so a normal run only adds id-less messages to the
accumulator. -/
theorem toolLoop_ids (calls : List ToolCall) :
    ∀ (next : NextNode) (acc : List Message) (n : NextNode) (ms : List Message),
      toolLoop calls next acc = Except.ok (n, ms) →
      (∀ m ∈ acc, m.id = none) → ∀ m ∈ ms, m.id = none := by
  induction calls with
  | nil =>
    intro next acc n ms h hacc
    simp only [toolLoop, Except.ok.injEq, Prod.mk.injEq] at h
    rw [← h.2]
    exact hacc
  | cons tc rest ih =>
    intro next acc n ms h hacc
    simp only [toolLoop] at h
    have haccOne : ∀ content : String,
        ∀ m ∈ acc ++ [mkToolMessage content tc.name tc.id], m.id = none := by
      intro content m hm
      rcases List.mem_append.mp hm with h2 | h2
      · exact hacc m h2
      · rw [List.mem_singleton] at h2
        subst h2
        rfl
    cases hres : tools_by_name tc.name with
    | none =>
      simp only [hres] at h
      exact ih _ _ _ _ h (haccOne _)
    | some g =>
      simp only [hres] at h
      cases hv : g tc.args with
      | error e =>
        simp only [hv] at h
        exact absurd h (by simp)
      | ok v =>
        simp only [hv] at h
        exact ih _ _ _ _ h (haccOne _)

/-- Merge of an update whose messages are all freshly constructed (id-less):
every such message is assigned a fresh unique id by langgraph and appended,
so `add_messages` concatenates the update to the existing history. -/
theorem add_messages_fresh (new : List Message) :
    (∀ m ∈ new, m.id = none) → ∀ old : List Message, add_messages old new = old ++ new := by
  induction new with
  | nil => intro _ old; simp [add_messages]
  | cons m rest ih =>
    intro h old
    have hm : m.id = none := h m (List.mem_cons_self _ _)
    have hrest := fun m2 h2 => h m2 (List.mem_cons_of_mem _ h2)
    have h1 : addOneMessage old m = old ++ [m] := by
      simp [addOneMessage, hm]
    have h2 := ih hrest (old ++ [m])
    simp only [add_messages, List.foldl_cons] at h2 ⊢
    rw [h1, h2, List.append_assoc]
    rfl

/-! ### C1: exception raised by a resolved capability -/

/-- ToolRequest naming the timeseries-plot capability with an empty
weather_data mapping: the resolved capability raises
`ValueError("Weather data cannot be empty")` when invoked. -/
def plotFailCall : ToolCall :=
  { id := "call_0", name := "plot_weather_timeseries",
    args := ToolArgs.plotArgs [] "Weather Forecast" }

/-- Inner state whose last model message requests only the raising plot
invocation. -/
def toolRaiseState : State :=
  { messages := [mkAIMessage "calling the plot tool" [plotFailCall]],
    plan_completed := none }

/-- ToolRequest naming the geocoding capability with schema-conforming
arguments; it returns normally. -/
def geoCall : ToolCall :=
  { id := "call_1", name := "get_geo_coordinates",
    args := ToolArgs.geoArgs "Toronto" "Ontario" "CA" }

/-- Inner state whose last model message requests a successful geocode
followed by the raising plot invocation. -/
def raiseAfterOkState : State :=
  { messages := [mkAIMessage "geocode then plot" [geoCall, plotFailCall]],
    plan_completed := none }

/-- C1 counterexample: the plot request resolves in the registry and its
capability raises when invoked, yet tool_node does not return normally
with a failure-describing ToolResult — it propagates the exception and
aborts, so the conversation does not continue. -/
theorem tool_exception_not_caught_cex :
    tools_by_name "plot_weather_timeseries" = some plot_weather_timeseries ∧
    plot_weather_timeseries (ToolArgs.plotArgs [] "Weather Forecast") =
      Except.error "Weather data cannot be empty" ∧
    tool_node toolRaiseState = Except.error "Weather data cannot be empty" ∧
    ∀ cmd : Command, ¬ tool_node toolRaiseState = Except.ok cmd := by
  refine ⟨rfl, rfl, rfl, ?_⟩
  intro cmd h
  rw [show tool_node toolRaiseState = Except.error "Weather data cannot be empty" from rfl] at h
  exact Except.noConfusion h

/-- C1 (amended): tool_node converts only the unresolved-name failure into
a ToolResult; an exception raised by a resolved capability is not caught:
when the last model message's requests are a normally-returning prefix
followed by a raising invocation, tool_node propagates that exception (the
error of the first raising invocation) and aborts instead of appending a
ToolResult describing it. -/
theorem tool_exception_propagates (s : State) (last : Message) (pre post : List ToolCall)
    (tc : ToolCall) (f : ToolArgs → Except String String) (e : String)
    (hlast : s.messages.getLast? = some last)
    (hkind : last.kind = MessageKind.ai (pre ++ tc :: post))
    (hpre : CallsReturn pre)
    (hf : tools_by_name tc.name = some f)
    (he : f tc.args = Except.error e) :
    tool_node s = Except.error e := by
  simp only [tool_node, hlast, hkind,
    toolLoop_first_error post tc f e hf he pre hpre NextNode.llm []]

/-- C1 witness: a concrete run in which the geocode request succeeds and
the following plot request raises; tool_node returns the propagated
exception. -/
theorem tool_exception_propagates_witness :
    tool_node raiseAfterOkState = Except.error "Weather data cannot be empty" :=
  tool_exception_propagates raiseAfterOkState
    (mkAIMessage "geocode then plot" [geoCall, plotFailCall])
    [geoCall] [] plotFailCall plot_weather_timeseries "Weather data cannot be empty"
    rfl rfl
    (by
      intro c hc g hg
      rw [List.mem_singleton] at hc
      subst hc
      rw [show tools_by_name geoCall.name = some get_geo_coordinates from rfl] at hg
      injection hg with hg
      subst hg
      exact ⟨_, rfl⟩)
    rfl rfl

/-! ### C2: one ToolResult per request, order, ids, halt decision -/

/-- ToolRequest naming the current-weather capability with
schema-conforming arguments; it returns normally. -/
def weatherCall : ToolCall :=
  { id := "call_2", name := "get_current_weather", args := ToolArgs.weatherArgs "Paris" }

/-- ToolRequest naming the plan-complete sentinel. -/
def planCall : ToolCall :=
  { id := "call_3", name := "plan_complete", args := ToolArgs.noArgs }

/-- Inner state whose last model message requests a weather lookup and then
the plan-complete sentinel. -/
def dispatchOkState : State :=
  { messages := [mkAIMessage "weather then complete" [weatherCall, planCall]],
    plan_completed := none }

/-- C2 counterexample: a state whose last message carries two tool requests
on which tool_node produces no ToolResult at all — the second request's
capability raises, the node aborts, and no Command is returned. -/
theorem tool_results_per_request_cex :
    (∃ last, raiseAfterOkState.messages.getLast? = some last ∧ ¬ last.toolCalls = []) ∧
    tool_node raiseAfterOkState = Except.error "Weather data cannot be empty" ∧
    ∀ cmd : Command, ¬ tool_node raiseAfterOkState = Except.ok cmd := by
  refine ⟨⟨mkAIMessage "geocode then plot" [geoCall, plotFailCall], rfl, by decide⟩, rfl, ?_⟩
  intro cmd h
  rw [show tool_node raiseAfterOkState = Except.error "Weather data cannot be empty" from rfl] at h
  exact Except.noConfusion h

/-- C2 (amended): for every state whose last message carries a tool-call
list all of whose resolved invocations return without raising, tool_node
produces exactly one ToolResult per ToolRequest, in request order, each a
tool message carrying the request's tool name and correlation id, and its
goto decision is END exactly when some request names "plan_complete"
(otherwise it continues to the model node). -/
theorem tool_dispatch_ok (s : State) (last : Message) (tcs : List ToolCall)
    (hlast : s.messages.getLast? = some last)
    (hkind : last.kind = MessageKind.ai tcs)
    (hok : CallsReturn tcs) :
    ∃ cmd, tool_node s = Except.ok cmd ∧
      cmd.update.map Message.kind = tcs.map (fun tc => MessageKind.tool tc.name tc.id) ∧
      (cmd.goto = NextNode.END ↔ ∃ tc ∈ tcs, tc.name = "plan_complete") := by
  obtain ⟨msgs, hloop, hkinds, _⟩ := toolLoop_ok tcs hok NextNode.llm []
  refine ⟨{ goto := if tcs.any (fun tc => tc.name == "plan_complete") then NextNode.END
              else NextNode.llm,
            update := msgs }, ?_, hkinds, ?_⟩
  · simp only [tool_node, hlast, hkind, hloop]
    simp
  · have hcase : (if tcs.any (fun tc => tc.name == "plan_complete") then NextNode.END
        else NextNode.llm) = NextNode.END ↔
        tcs.any (fun tc => tc.name == "plan_complete") = true := by
      by_cases h : tcs.any (fun tc => tc.name == "plan_complete") <;> simp [h]
    rw [hcase, List.any_eq_true]
    simp only [beq_iff_eq]

/-- C2 witness: the weather-then-plan-complete dispatch returns one tool
message per request in order and halts the inner loop. -/
theorem tool_dispatch_ok_witness :
    ∃ cmd, tool_node dispatchOkState = Except.ok cmd ∧
      cmd.update.map Message.kind =
        [weatherCall, planCall].map (fun tc => MessageKind.tool tc.name tc.id) ∧
      (cmd.goto = NextNode.END ↔ ∃ tc ∈ [weatherCall, planCall], tc.name = "plan_complete") :=
  tool_dispatch_ok dispatchOkState
    (mkAIMessage "weather then complete" [weatherCall, planCall])
    [weatherCall, planCall] rfl rfl
    (by
      intro c hc g hg
      rcases List.mem_cons.mp hc with h | h
      · subst h
        rw [show tools_by_name weatherCall.name = some get_current_weather from rfl] at hg
        injection hg with hg
        subst hg
        exact ⟨_, rfl⟩
      · rw [List.mem_singleton] at h
        subst h
        rw [show tools_by_name planCall.name = some plan_complete from rfl] at hg
        injection hg with hg
        subst hg
        exact ⟨_, rfl⟩)

/-! ### C5: unknown tool names are not fatal -/

/-- ToolRequest naming a capability absent from the registry. -/
def moonCall : ToolCall :=
  { id := "call_4", name := "get_moon_phase", args := ToolArgs.other }

/-- Inner state whose last model message requests only the unknown
capability "get_moon_phase". -/
def moonState : State :=
  { messages := [mkAIMessage "moon phase please" [moonCall]], plan_completed := none }

/-- C5: for every state whose last message's tool requests all fail to
resolve in the registry, tool_node returns normally, appending for each
request a ToolResult whose content is exactly `"Tool <name> not found"`,
and its routing decision stays "llm" (continue) — an unknown tool name
never halts the inner loop and is never fatal. -/
theorem unknown_tool_not_fatal (s : State) (last : Message) (tcs : List ToolCall)
    (hlast : s.messages.getLast? = some last)
    (hkind : last.kind = MessageKind.ai tcs)
    (hunres : ∀ tc ∈ tcs, tools_by_name tc.name = none) :
    tool_node s = Except.ok
      { goto := NextNode.llm,
        update := tcs.map (fun tc =>
          mkToolMessage ("Tool " ++ tc.name ++ " not found") tc.name tc.id) } := by
  simp only [tool_node, hlast, hkind, toolLoop_unresolved tcs hunres NextNode.llm []]
  simp

/-- C5 witness: the "get_moon_phase" request of Scenario B yields the
ToolResult "Tool get_moon_phase not found" and the decision to continue. -/
theorem unknown_tool_not_fatal_witness :
    tool_node moonState = Except.ok
      { goto := NextNode.llm,
        update := [mkToolMessage "Tool get_moon_phase not found" "get_moon_phase" "call_4"] } :=
  unknown_tool_not_fatal moonState (mkAIMessage "moon phase please" [moonCall]) [moonCall]
    rfl rfl
    (by
      intro c hc
      rw [List.mem_singleton] at hc
      subst hc
      rfl)

/-! ### C3: outer-loop exit decision -/

/-- C3: on the replanning-exit check, the outer loop goes to END exactly
when the completion flag is true or the current plan has no steps, and in
every other case it goes back to the "function_calling_agent" node (a
missing/None completion flag counts as false, as `state.get` does). -/
theorem should_end_iff (s : PlanSolve) :
    (should_end s = "__end__" ↔ (s.plan_completed = some true ∨ s.plan = [])) ∧
    (should_end s = "function_calling_agent" ↔
      ¬ (s.plan_completed = some true ∨ s.plan = [])) := by
  have hc : (s.plan_completed.getD false || s.plan.length == 0) = true ↔
      (s.plan_completed = some true ∨ s.plan = []) := by
    rw [Bool.or_eq_true, beq_iff_eq, List.length_eq_zero]
    cases s.plan_completed with
    | none => simp
    | some b => cases b <;> simp
  rw [← hc]
  unfold should_end
  by_cases h : (s.plan_completed.getD false || s.plan.length == 0) = true
  · simp [h]
  · simp [h]

/-! ### C6: inner-loop routing after a model turn -/

/-- C6: with a non-empty history, the conditional edge routes to the tool
node exactly when the last message is a model message with at least one
tool request, and to END in every other case. -/
theorem route_tools_iff (s : State) (m : Message)
    (h : s.messages.getLast? = some m) :
    (route_tools s = Except.ok "tools" ↔
      ∃ tcs, m.kind = MessageKind.ai tcs ∧ ¬ tcs = []) ∧
    (route_tools s = Except.ok "__end__" ↔
      ∀ tcs, m.kind = MessageKind.ai tcs → tcs = []) := by
  simp only [route_tools, h]
  cases hk : m.kind with
  | human => simp
  | tool n i => simp
  | ai tcs =>
    by_cases htcs : tcs = []
    · subst htcs
      simp
    · have hlen : tcs.length > 0 := List.length_pos.mpr htcs
      simp [htcs, hlen]

/-- C6 witness: a state whose last message is a model message carrying two
tool requests routes to "tools". -/
theorem route_tools_iff_witness :
    (route_tools dispatchOkState = Except.ok "tools" ↔
      ∃ tcs, (mkAIMessage "weather then complete" [weatherCall, planCall]).kind =
        MessageKind.ai tcs ∧ ¬ tcs = []) ∧
    (route_tools dispatchOkState = Except.ok "__end__" ↔
      ∀ tcs, (mkAIMessage "weather then complete" [weatherCall, planCall]).kind =
        MessageKind.ai tcs → tcs = []) :=
  route_tools_iff dispatchOkState
    (mkAIMessage "weather then complete" [weatherCall, planCall]) rfl

/-! ### C7: empty history at the model-invocation node -/

/-- Test backend that answers with the length of the history it receives,
so reaching it is observable in the returned message. -/
def countingBackend : List Message → Message :=
  fun ms => mkAIMessage (toString ms.length) []

/-- Inner state with an empty conversation history. -/
def emptyState : State := { messages := [], plan_completed := none }

/-- C7 counterexample: invoked on an empty history, llm_node does not fail
fast — it returns normally, and its response is the backend's answer to
the empty history (the counting backend reports it was called with 0
messages), so the model backend is reached rather than an error raised. -/
theorem llm_node_empty_history_cex :
    llm_node countingBackend emptyState = Except.ok [mkAIMessage "0" []] ∧
    ∀ e : String, ¬ llm_node countingBackend emptyState = Except.error e := by
  refine ⟨rfl, ?_⟩
  intro e h
  rw [show llm_node countingBackend emptyState = Except.ok [mkAIMessage "0" []] from rfl] at h
  exact Except.noConfusion h

/-- C7 (amended): llm_node performs no emptiness check: for every state,
the empty history included, it returns normally with exactly the backend's
response to that history, so an empty history reaches the model backend;
the inner graph's empty-history fail-fast lives in the routing function
route_tools instead, which raises ValueError on an empty message list. -/
theorem llm_node_no_fail_fast :
    (∀ (backend : List Message → Message) (s : State),
      llm_node backend s = Except.ok [backend s.messages]) ∧
    (∀ s : State, s.messages = [] →
      route_tools s =
        Except.error "ValueError: No messages found in input state to tool_edge") := by
  refine ⟨fun backend s => rfl, fun s h => ?_⟩
  simp [route_tools, h]

/-! ### C4: completion detection by transcript scan -/

/-- Tool_calls of a message whose kind is known to be a model message. -/
theorem toolCalls_of_ai {m : Message} {tcs : List ToolCall}
    (h : m.kind = MessageKind.ai tcs) : m.toolCalls = tcs := by
  simp [Message.toolCalls, h]

/-- Characterisation of the AI filter predicate. -/
theorem isAI_iff {m : Message} : m.isAI = true ↔ ∃ tcs, m.kind = MessageKind.ai tcs := by
  cases h : m.kind <;> simp [Message.isAI, h]

/-- Source loop of execute_step seen as a fold: starting from flag `b`, the
flag ends true exactly when it started true or some element satisfies the
scan predicate. -/
theorem foldl_or_eq (p : Message → Bool) (l : List Message) :
    ∀ b : Bool, l.foldl (fun flag m => flag || p m) b = (b || l.any p) := by
  induction l with
  | nil => intro b; simp
  | cons m rest ih => intro b; simp [List.foldl_cons, List.any_cons, ih, Bool.or_assoc]

/-- C4: the completion flag returned by execute_step is true exactly when
some model message of the inner transcript carries a tool request named
"plan_complete"; with no such request anywhere in the transcript it is
false. -/
theorem execute_step_completion_iff (ex : List Message → List Message) (s : PlanSolve) :
    (execute_step ex s).plan_completed = true ↔
      ∃ m ∈ ex [mkHumanMessage (execute_step_task s.plan)],
        ∃ tcs, m.kind = MessageKind.ai tcs ∧ ∃ tc ∈ tcs, tc.name = "plan_complete" := by
  unfold execute_step
  simp only [foldl_or_eq, Bool.false_or, List.any_eq_true, List.mem_filter]
  constructor
  · rintro ⟨m, ⟨hm, hai⟩, htc⟩
    obtain ⟨tcs, hk⟩ := isAI_iff.mp hai
    rw [toolCalls_of_ai hk] at htc
    obtain ⟨tc, hmem, hname⟩ := htc
    exact ⟨m, hm, tcs, hk, tc, hmem, by simpa using hname⟩
  · rintro ⟨m, hm, tcs, hk, tc, hmem, hname⟩
    refine ⟨m, ⟨hm, isAI_iff.mpr ⟨tcs, hk⟩⟩, ?_⟩
    rw [toolCalls_of_ai hk]
    exact ⟨tc, hmem, by simp [hname]⟩

/-! ### C8: one model turn with no tool requests -/

/-- C8: when the inner run on a plan of at least one step produces a
transcript of exactly one human message and one model message with no
tool requests (and no tool messages), execute_step returns an empty
past_steps delta and a false completion flag. -/
theorem execute_step_single_turn (ex : List Message → List Message) (s : PlanSolve)
    (m1 m2 : Message)
    (hplan : 1 ≤ s.plan.length)
    (hrun : ex [mkHumanMessage (execute_step_task s.plan)] = [m1, m2])
    (h1 : m1.kind = MessageKind.human) (h2 : m2.kind = MessageKind.ai []) :
    execute_step ex s = { past_steps := [], plan_completed := false } := by
  unfold execute_step
  rw [hrun]
  have hai1 : m1.isAI = false := by simp [Message.isAI, h1]
  have htool1 : m1.isToolMsg = false := by simp [Message.isToolMsg, h1]
  have hai2 : m2.isAI = true := by simp [Message.isAI, h2]
  have htool2 : m2.isToolMsg = false := by simp [Message.isToolMsg, h2]
  simp [hai1, htool1, hai2, htool2, toolCalls_of_ai h2]

/-- Inner agent that answers a single model turn with no tool requests. -/
def oneTurnExec : List Message → List Message :=
  fun ms => ms ++ [mkAIMessage "nothing to do" []]

/-- Outer state with a one-step plan. -/
def simplePlanState : PlanSolve :=
  { input := "say hi", plan := ["greet the user"], past_steps := [], plan_completed := none }

/-- C8 witness: running the one-step plan against the single-turn agent
leaves past_steps empty and the completion flag false. -/
theorem execute_step_single_turn_witness :
    execute_step oneTurnExec simplePlanState = { past_steps := [], plan_completed := false } :=
  execute_step_single_turn oneTurnExec simplePlanState
    (mkHumanMessage (execute_step_task simplePlanState.plan))
    (mkAIMessage "nothing to do" []) (by decide) rfl rfl rfl

/-! ### C9: append-only merge of messages and past_steps -/

/-- C9: merges of the two accumulating fields are append-only: a fresh
(id-less) messages update is concatenated to the end of the history by the
`add_messages` reducer, every messages update tool_node returns is such a
fresh update (so merging it preserves the existing history as a prefix),
llm_node's update merges the same way whenever its backend response is
fresh, and the `operator.add` reducer on past_steps concatenates, so
applying any outer update leaves the existing step records in place. -/
theorem append_only_merge :
    (∀ old new : List Message, (∀ m ∈ new, m.id = none) →
      add_messages old new = old ++ new) ∧
    (∀ (s : State) (cmd : Command), tool_node s = Except.ok cmd →
      (∀ m ∈ cmd.update, m.id = none) ∧
      add_messages s.messages cmd.update = s.messages ++ cmd.update) ∧
    (∀ (backend : List Message → Message) (s : State) (upd old : List Message),
      llm_node backend s = Except.ok upd → (∀ m ∈ upd, m.id = none) →
      add_messages old upd = old ++ upd) ∧
    (∀ old delta : List StepRec, operatorAdd old delta = old ++ delta) ∧
    (∀ (s : PlanSolve) (u : PlanSolveUpdate),
      (applyPlanSolveUpdate s u).past_steps = s.past_steps ++ u.past_steps.getD []) := by
  have base : ∀ old new : List Message, (∀ m ∈ new, m.id = none) →
      add_messages old new = old ++ new :=
    fun old new h => add_messages_fresh new h old
  refine ⟨base, ?_, ?_, fun old delta => rfl, ?_⟩
  · intro s cmd h
    have hids : ∀ m ∈ cmd.update, m.id = none := by
      unfold tool_node at h
      cases hlast : s.messages.getLast? with
      | none => simp [hlast] at h
      | some mr =>
        simp only [hlast] at h
        cases hk : mr.kind with
        | ai tcs =>
          simp only [hk] at h
          cases hloop : toolLoop tcs NextNode.llm [] with
          | error e => simp [hloop] at h
          | ok r =>
            obtain ⟨n2, ms2⟩ := r
            simp only [hloop, Except.ok.injEq] at h
            subst h
            exact toolLoop_ids tcs NextNode.llm [] n2 ms2 hloop (by simp)
        | human => simp [hk] at h
        | tool n i => simp [hk] at h
    exact ⟨hids, base s.messages cmd.update hids⟩
  · intro backend s upd old h hfresh
    exact base old upd hfresh
  · intro s u
    cases hps : u.past_steps <;> simp [applyPlanSolveUpdate, operatorAdd, hps]

/-! ### C10: replanning updates only the plan -/

/-- C10: the update returned by replanner_node mentions only the plan
field; merging it leaves the objective, the accumulated past_steps and the
completion flag unchanged (so replanning alone never sets completion to
true), and replaces the plan with the backend's new steps. -/
theorem replanner_frame (backend : String → Plan) (s : PlanSolve) :
    (replanner_node backend s).input = none ∧
    (replanner_node backend s).past_steps = none ∧
    (replanner_node backend s).plan_completed = none ∧
    (applyPlanSolveUpdate s (replanner_node backend s)).input = s.input ∧
    (applyPlanSolveUpdate s (replanner_node backend s)).past_steps = s.past_steps ∧
    (applyPlanSolveUpdate s (replanner_node backend s)).plan_completed = s.plan_completed ∧
    (applyPlanSolveUpdate s (replanner_node backend s)).plan =
      (backend (replannerSystemMessage s.input (renderNumberedPlan s.plan)
        (renderPastSteps s.past_steps))).steps :=
  ⟨rfl, rfl, rfl, rfl, rfl, rfl, rfl⟩

end Recipe
